import Mathlib

/-! webhookd: SMTP notifier and configuration

A shallow embedding of `pkg/notification/smtp_notifier.go` and
`pkg/config/config.go`, followed by the properties established about them.

Go strings are modelled as lists of characters (`GoString`): a Go string holding
valid UTF-8 text is the sequence of its code points.  The three placeholders, the
header keys and the separators of this file are ASCII, so matching them on
characters or on bytes finds the same occurrences.
-/

namespace Webhookd

/-- A Go `string`, as the sequence of its characters. -/
abbrev GoString := List Char

/-! ## Go standard library functions used by the notifier -/

/-- The loop of `strings.Replace(s, old, new, -1)` for a non-empty `old`, scanning
`s` from the left.  The first argument counts the characters of a matched
occurrence of `old` that remain to be skipped: occurrences are replaced leftmost
first and never overlap. -/
def replaceFrom (old new : GoString) : Nat → GoString → GoString
  | _, [] => []
  | skip + 1, _ :: cs => replaceFrom old new skip cs
  | 0, c :: cs =>
    if old.isPrefixOf (c :: cs) then new ++ replaceFrom old new (old.length - 1) cs
    else c :: replaceFrom old new 0 cs

/-- Go `strings.ReplaceAll(s, old, new)`: every non-overlapping occurrence of `old`
in `s` replaced by `new`.  With an empty `old`, `new` is inserted before the first
character and after every character. -/
def ReplaceAll (s old new : GoString) : GoString :=
  if old = [] then new ++ s.flatMap (fun c => c :: new)
  else replaceFrom old new 0 s

/-- The digits of `n` in base 10, least significant first, appended in front of
`acc` most significant first.  `fuel` bounds the number of divisions. -/
def formatBits : Nat → Nat → GoString → GoString
  | 0, _, acc => acc
  | fuel + 1, n, acc =>
    let acc := Char.ofNat (48 + n % 10) :: acc
    if n / 10 = 0 then acc else formatBits fuel (n / 10) acc

/-- Go `strconv.FormatUint(n, 10)` for a `uint64` value `n`. -/
def FormatUint (n : Nat) : GoString :=
  formatBits 20 (n % 2 ^ 64) []

/-- Go `unicode.IsSpace`. -/
def isSpace (c : Char) : Bool :=
  let n := c.toNat
  (9 ≤ n && n ≤ 13) || n == 32 || n == 0x85 || n == 0xA0 || n == 0x1680 ||
  (0x2000 ≤ n && n ≤ 0x200A) || n == 0x2028 || n == 0x2029 || n == 0x202F ||
  n == 0x205F || n == 0x3000

/-- Go `strings.TrimSpace`: leading and trailing white space removed. -/
def TrimSpace (s : GoString) : GoString :=
  ((s.dropWhile isSpace).reverse.dropWhile isSpace).reverse

/-! ## `model.WorkRequest` -/

/-- The part of `model.WorkRequest` the notifier reads.  The type is declared
outside the files embedded here; its `StatusLabel()` and `GetLogContent(prefix)`
methods are carried as the values they return. -/
structure WorkRequest where
  ID : Nat
  Name : GoString
  StatusLabel : GoString
  GetLogContent : GoString → GoString

/-! ## `smtp_notifier.go` -/

/-- `buildSubject`: three successive `strings.ReplaceAll` passes. -/
def buildSubject (template : GoString) (work : WorkRequest) : GoString :=
  let result := ReplaceAll template "{name}".toList work.Name
  let result := ReplaceAll result "{id}".toList (FormatUint (work.ID % 2 ^ 64))
  let result := ReplaceAll result "{status}".toList work.StatusLabel
  result

/-- Go `url.URL`, reduced to what `newSMTPNotifier` reads: the opaque part and the
result of `uri.Query()`, the decoded `key=value` pairs of the query string in the
order they appear. -/
structure URL where
  Opaque : GoString
  Query : List (GoString × GoString)

/-- Modelled from the spec: `getValueOrAlt` is called by `newSMTPNotifier` but is
declared in a file of the package that is not among the sources.  The spec gives
the notifier's parameters defaults (a prefix that is `notify:` by default) which
the query keys of the notification URI replace: the function returns the first
value the query gives for `key`, and `alt` when the query does not contain `key`. -/
def getValueOrAlt (q : List (GoString × GoString)) (key alt : GoString) : GoString :=
  match q.lookup key with
  | some v => v
  | none => alt

/-- `SMTPNotifier` is able to send notification to a email destination. -/
structure SMTPNotifier where
  Host : GoString
  Username : GoString
  Password : GoString
  Conn : GoString
  From : GoString
  To : GoString
  Subject : GoString
  PrefixFilter : GoString
  deriving DecidableEq

/-- `newSMTPNotifier` (the log line it prints is not part of the result). -/
def newSMTPNotifier (uri : URL) : SMTPNotifier :=
  let q := uri.Query
  { Host := getValueOrAlt q "smtp".toList "localhost:25".toList
    Username := getValueOrAlt q "username".toList "".toList
    Password := getValueOrAlt q "password".toList "".toList
    Conn := getValueOrAlt q "conn".toList "plain".toList
    From := getValueOrAlt q "from".toList "noreply@nunux.org".toList
    To := uri.Opaque
    Subject := getValueOrAlt uri.Query "subject".toList
      "[whd-notification] {name}#{id} {status}".toList
    PrefixFilter := getValueOrAlt uri.Query "prefix".toList "notify:".toList }

/-- A Go `map[string]string`, as its entries (keys pairwise distinct). -/
abbrev GoMap := List (GoString × GoString)

/-- The assignment `m[k] = v`. -/
def GoMap.set (m : GoMap) (k v : GoString) : GoMap :=
  if m.any (fun e => e.1 == k) then m.map (fun e => if e.1 == k then (k, v) else e)
  else m ++ [(k, v)]

/-- The order in which a `for k, v := range m` loop visits the entries of a map.
Go leaves it unspecified: the runtime picks some arrangement of the entries. -/
structure RangeOrder where
  pick : GoMap → GoMap
  perm : ∀ m, (pick m).Perm m

/-- `fmt.Sprintf("%s: %s\r\n", k, v)`. -/
def headerLine (k v : GoString) : GoString :=
  k ++ ": ".toList ++ v ++ "\r\n".toList

/-- `SMTPNotifier.buildEmailPayload`, for the iteration order `ord` of the
headers map. -/
def SMTPNotifier.buildEmailPayload (n : SMTPNotifier) (work : WorkRequest)
    (ord : RangeOrder) : GoString :=
  -- Get email body
  let body := work.GetLogContent n.PrefixFilter
  if TrimSpace body = [] then []
  else
    -- Build email subject
    let subject := buildSubject n.Subject work
    -- Build email headers
    let headers : GoMap := []
    let headers := headers.set "From".toList n.From
    let headers := headers.set "To".toList n.To
    let headers := headers.set "Subject".toList subject
    -- Build email payload
    let payload := (ord.pick headers).foldl (fun payload e => payload ++ headerLine e.1 e.2) []
    payload ++ ("\r\n".toList ++ body)

/-- A Go `error` value returned by a network call. -/
abbrev NetError := GoString

/-- The operations performed on the network and on the SMTP session, with their
arguments: the calls `Notify` makes, and the abort line a failing `client.Auth`
sends on its own. -/
inductive Op where
  /-- The call `net.DialTimeout(network, address, seconds * time.Second)`. -/
  | dial (network address : GoString) (seconds : Nat)
  /-- The call `smtp.NewClient(conn, host)`. -/
  | newClient (host : GoString)
  /-- The call `client.StartTLS` with a `tls.Config` of these two fields. -/
  | startTLS (insecureSkipVerify : Bool) (serverName : GoString)
  /-- The call `client.Auth(smtp.PlainAuth(identity, username, password, host))`. -/
  | auth (identity username password host : GoString)
  /-- The call `client.Mail(sender)`. -/
  | mail (sender : GoString)
  /-- The call `client.Rcpt(recipient)`. -/
  | rcpt (recipient : GoString)
  /-- The call `client.Data()`. -/
  | data
  /-- The call `wc.Write([]byte(payload))`. -/
  | write (payload : GoString)
  /-- The call `wc.Close()`. -/
  | close
  /-- The call `client.Quit()`. -/
  | quit
  /-- The line `*` by which `client.Auth` aborts an authentication exchange. -/
  | abort
  deriving DecidableEq

/-- The ways a call of `client.Auth` fails in `net/smtp`. -/
inductive AuthFailure where
  /-- The greeting exchange fails: the error is returned at once. -/
  | hello
  /-- The mechanism refuses to start (`PlainAuth` over an unencrypted connection
  to a server that is not local, or for another host name): the client calls
  `Quit` before it returns the error. -/
  | start
  /-- The `AUTH` command cannot be exchanged: the error is returned at once. -/
  | transport
  /-- The reply of the server is refused: the client sends `*` to abort the
  exchange and calls `Quit` before it returns the error. -/
  | rejected
  deriving DecidableEq

/-- The world outside the notifier: the host part `net.SplitHostPort` extracts
from an address (the empty string when the address does not split); for each
network operation, given the operations performed before it, the error it returns
(`none` when it succeeds); and the way `client.Auth` fails when it does. -/
structure Net where
  SplitHostPort : GoString → GoString
  outcome : List Op → Op → Option NetError
  authFailure : List Op → AuthFailure

/-- What a failing library call does on the session before it returns its error.
In `net/smtp` only `client.Auth` does anything: it calls `Quit` when the mechanism
refuses to start, and sends `*` then calls `Quit` when the server's reply is
refused.  The other calls return their error at once. -/
def cleanup (net : Net) (done : List Op) : Op → List Op
  | .auth _ _ _ _ =>
    match net.authFailure done with
    | .start => [.quit]
    | .rejected => [.abort, .quit]
    | .hello => []
    | .transport => []
  | _ => []

/-- One network call followed by `if err != nil { return err }`: the operation is
recorded after the operations `done`; if it fails, what the library call did on
its own before failing is recorded and its error is returned, otherwise the rest
of the function runs. -/
def call (net : Net) (op : Op) (done : List Op)
    (rest : List Op → List Op × Option NetError) : List Op × Option NetError :=
  match net.outcome done op with
  | some err => (done ++ [op] ++ cleanup net done op, some err)
  | none => rest (done ++ [op])

/-- A network call guarded by `if cond { ... }`. -/
def callIf (cond : Bool) (net : Net) (op : Op) (done : List Op)
    (rest : List Op → List Op × Option NetError) : List Op × Option NetError :=
  if cond then call net op done rest else rest done

/-- `SMTPNotifier.Notify`: the network operations performed, in order, and the
returned error (`none` for `nil`). -/
def SMTPNotifier.Notify (n : SMTPNotifier) (work : WorkRequest) (ord : RangeOrder)
    (net : Net) : List Op × Option NetError :=
  let hostname := net.SplitHostPort n.Host
  let payload := n.buildEmailPayload work ord
  if payload = [] then
    -- Nothing to notify, abort
    ([], none)
  else
    -- Dial connection
    call net (.dial "tcp".toList n.Host 5) [] fun done =>
    -- Connect to SMTP server
    call net (.newClient hostname) done fun done =>
    callIf (n.Conn = "tls".toList || n.Conn = "tls-insecure".toList) net
      (.startTLS (n.Conn = "tls-insecure".toList) hostname) done fun done =>
    -- Set auth if needed
    callIf (n.Username != []) net
      (.auth [] n.Username n.Password hostname) done fun done =>
    -- Set the sender and recipient first
    call net (.mail n.From) done fun done =>
    call net (.rcpt n.To) done fun done =>
    -- Send the email body.
    call net .data done fun done =>
    call net (.write payload) done fun done =>
    call net .close done fun done =>
    -- Send the QUIT command and close the connection.
    call net .quit done fun done => (done, none)

/-! ## `config.go` -/

/-- The Go types of the fields of `Config`. -/
inductive GoType where
  | string
  | bool
  | int
  deriving DecidableEq

/-- One field of the `Config` struct with its tags; `dflt` is `none` when the
field has no `default` tag. -/
structure ConfigField where
  name : String
  type : GoType
  flag : String
  desc : String
  dflt : Option String
  deriving DecidableEq

/-- `Config` contain global configuration: the fields of the struct, in order. -/
def Config : List ConfigField :=
  [ ⟨"ListenAddr", .string, "listen-addr", "HTTP listen address", some ":8080"⟩,
    ⟨"TLS", .bool, "tls", "Activate TLS", some "false"⟩,
    ⟨"TLSCertFile", .string, "tls-cert-file", "TLS certificate file", some "server.pem"⟩,
    ⟨"TLSKeyFile", .string, "tls-key-file", "TLS key file", some "server.key"⟩,
    ⟨"TLSDomain", .string, "tls-domain", "TLS domain name used by ACME", none⟩,
    ⟨"NbWorkers", .int, "nb-workers", "Number of workers to start", some "2"⟩,
    ⟨"HookTimeout", .int, "hook-timeout", "Maximum hook execution time in second",
      some "10"⟩,
    ⟨"HookLogDir", .string, "hook-log-dir", "Hook execution logs location", some ""⟩,
    ⟨"HookLogOutput", .bool, "hook-log-output",
      "Output hook execution logs to server logs", some "false"⟩,
    ⟨"ScriptDir", .string, "scripts", "Scripts location", some "scripts"⟩,
    ⟨"PasswdFile", .string, "passwd-file", "Password file for basic HTTP authentication",
      some ".htpasswd"⟩,
    ⟨"LogLevel", .string, "log-level", "Log level (debug, info, warn, error)",
      some "info"⟩,
    ⟨"StaticDir", .string, "static-dir", "Static file directory to serve on /static path",
      some ""⟩,
    ⟨"NotificationURI", .string, "notification-uri", "Notification URI", none⟩,
    ⟨"TrustStoreFile", .string, "trust-store-file",
      "Trust store used by HTTP signature verifier (.pem or .p12)", none⟩ ]

/-! ## Definitions used to state the properties -/

/-- Simultaneous substitution of the three placeholders, scanning the template
from the left: at an occurrence of `{name}`, `{id}` or `{status}` the corresponding
field is written and the occurrence skipped; any other character is copied.  The
text written for a placeholder is never scanned again.  The first argument counts
the characters of a matched placeholder that remain to be skipped. -/
def substituteFrom (name id status : GoString) : Nat → GoString → GoString
  | _, [] => []
  | skip + 1, _ :: cs => substituteFrom name id status skip cs
  | 0, c :: cs =>
    if "{name}".toList.isPrefixOf (c :: cs) then
      name ++ substituteFrom name id status 5 cs
    else if "{id}".toList.isPrefixOf (c :: cs) then
      id ++ substituteFrom name id status 3 cs
    else if "{status}".toList.isPrefixOf (c :: cs) then
      status ++ substituteFrom name id status 7 cs
    else c :: substituteFrom name id status 0 cs

/-- The template in which every `{name}`, `{id}` and `{status}` is replaced, all at
once, by the request's name, the decimal rendering of its id and its status
label. -/
def substitute (template : GoString) (work : WorkRequest) : GoString :=
  substituteFrom work.Name (FormatUint (work.ID % 2 ^ 64)) work.StatusLabel 0 template

/-- A piece of a subject template: a literal character or one of the three
placeholders. -/
inductive Piece where
  | lit (c : Char)
  | name
  | id
  | status
  deriving DecidableEq

/-- The text of a piece as written in a template. -/
def Piece.text : Piece → GoString
  | .lit c => [c]
  | .name => "{name}".toList
  | .id => "{id}".toList
  | .status => "{status}".toList

/-- The text a piece stands for, once the placeholders selected by `doName`,
`doId` and `doStatus` are replaced by the fields of the request. -/
def Piece.expand (work : WorkRequest) (doName doId doStatus : Bool) : Piece → GoString
  | .lit c => [c]
  | .name => if doName then work.Name else "{name}".toList
  | .id => if doId then FormatUint (work.ID % 2 ^ 64) else "{id}".toList
  | .status => if doStatus then work.StatusLabel else "{status}".toList

/-- The template written by a list of pieces. -/
def templateOf (ps : List Piece) : GoString :=
  ps.flatMap Piece.text

/-- The decimal rendering of `n`: its base-10 digits, most significant first,
`"0"` for zero. -/
def decimal (n : Nat) : GoString :=
  if n = 0 then ['0'] else (Nat.digits 10 n).reverse.map (fun d => Char.ofNat (48 + d))

/-- Go `strings.Cut(s, sep)` when `sep` occurs in `s`: the text before the first
occurrence of `sep` and the text after it; `none` when `sep` does not occur. -/
def Cut (sep : GoString) : GoString → Option (GoString × GoString)
  | [] => if sep = [] then some ([], []) else none
  | c :: cs =>
    if sep.isPrefixOf (c :: cs) then some ([], (c :: cs).drop sep.length)
    else (Cut sep cs).map fun r => (c :: r.1, r.2)

/-- A text without carriage return and without line feed. -/
def noLineBreak (s : GoString) : Prop :=
  '\r' ∉ s ∧ '\n' ∉ s

instance (s : GoString) : Decidable (noLineBreak s) := by
  unfold noLineBreak
  exact inferInstance

/-- The operations of a complete delivery, in order: dial, client creation,
StartTLS when `Conn` is `tls` or `tls-insecure`, Auth when `Username` is not empty,
Mail, Rcpt, Data, the write of the payload, the close of the data writer, Quit. -/
def expectedOps (n : SMTPNotifier) (hostname payload : GoString) : List Op :=
  [Op.dial "tcp".toList n.Host 5, Op.newClient hostname]
    ++ (if n.Conn = "tls".toList ∨ n.Conn = "tls-insecure".toList then
          [Op.startTLS (decide (n.Conn = "tls-insecure".toList)) hostname]
        else [])
    ++ (if n.Username ≠ [] then [Op.auth [] n.Username n.Password hostname] else [])
    ++ [Op.mail n.From, Op.rcpt n.To, Op.data, Op.write payload, Op.close, Op.quit]

/-- Performing a list of operations in order after the operations `done`, stopping
at the first one that fails, after what the failing call did on its own: the
operations performed and the error returned. -/
def runOps (net : Net) : List Op → List Op → List Op × Option NetError
  | [], done => (done, none)
  | op :: ops, done =>
    match net.outcome done op with
    | some err => (done ++ [op] ++ cleanup net done op, some err)
    | none => runOps net ops (done ++ [op])

/-- An iteration order for the examples: the entries in reverse. -/
def reverseOrder : RangeOrder :=
  ⟨fun m => m.reverse, fun m => List.reverse_perm m⟩

/-- A network for the examples: the host part of an address is the text before
its first colon, and every operation succeeds except `failing`, which returns the
error `refused`; `how` is the way `client.Auth` fails when it is the one. -/
def netFailingAt (failing : Option Op) (how : AuthFailure) : Net :=
  ⟨fun address => address.takeWhile (fun c => c != ':'),
    fun _ op => if some op = failing then some "refused".toList else none,
    fun _ => how⟩

/-- A request for the examples: job `deploy` number 42, finished with `success`,
whose log gives the body `done` followed by a line feed for every prefix. -/
def exampleWork : WorkRequest :=
  ⟨42, "deploy".toList, "success".toList, fun _ => "done\n".toList⟩

/-- A notifier for the examples, for `smtp:ops@example.org` with the query
`smtp=mail.example.org:587&conn=tls&username=bob&password=secret`. -/
def exampleNotifier : SMTPNotifier :=
  newSMTPNotifier ⟨"ops@example.org".toList,
    [("smtp".toList, "mail.example.org:587".toList), ("conn".toList, "tls".toList),
      ("username".toList, "bob".toList), ("password".toList, "secret".toList)]⟩

/-- The query keys `newSMTPNotifier` reads. -/
def smtpKeys : List GoString :=
  ["smtp".toList, "username".toList, "password".toList, "conn".toList, "from".toList,
    "subject".toList, "prefix".toList]

/-- The value of a non-empty string of decimal digits. -/
def parseDigits (ds : List Char) : Option Nat :=
  if ds ≠ [] ∧ ds.all Char.isDigit then
    some (ds.foldl (fun n c => 10 * n + (c.toNat - 48)) 0)
  else none

/-- The integer written by a string: decimal digits after an optional sign. -/
def parseInt (s : String) : Option Int :=
  match s.toList with
  | '-' :: ds => (parseDigits ds).map fun n => -(n : Int)
  | '+' :: ds => (parseDigits ds).map fun n => (n : Int)
  | ds => (parseDigits ds).map fun n => (n : Int)

/-- A `default` tag is a valid value of a field's type: any text for a string,
`true` or `false` for a bool, an integer for an int. -/
def validDefault : GoType → String → Bool
  | .string, _ => true
  | .bool, d => d == "true" || d == "false"
  | .int, d => (parseInt d).isSome

/-- The `default` tag of the field with the given flag name. -/
def defaultOf (flag : String) : Option String :=
  (Config.find? fun f => f.flag == flag).bind fun f => f.dflt

/-! ## Lemmas on `strings.ReplaceAll` -/

theorem replaceFrom_skip (old new : GoString) :
    ∀ (xs rest : GoString),
      replaceFrom old new xs.length (xs ++ rest) = replaceFrom old new 0 rest
  | [], rest => by simp
  | x :: xs, rest => by
    simp only [List.length_cons, List.cons_append, replaceFrom]
    exact replaceFrom_skip old new xs rest

/-- Text that does not contain the first character of `old` is copied. -/
theorem replaceFrom_copy (h : Char) (old new : GoString) :
    ∀ (a t : GoString), (∀ c ∈ a, c ≠ h) →
      replaceFrom (h :: old) new 0 (a ++ t) = a ++ replaceFrom (h :: old) new 0 t
  | [], t, _ => by simp
  | c :: a, t, ha => by
    have hc : h ≠ c := fun e => ha c (List.mem_cons_self _ _) e.symm
    have ih := replaceFrom_copy h old new a t (fun x hx => ha x (List.mem_cons_of_mem _ hx))
    simp [replaceFrom, List.isPrefixOf, hc, ih]

theorem replaceFrom_match (old new : GoString) (h : old ≠ []) (t : GoString) :
    replaceFrom old new 0 (old ++ t) = new ++ replaceFrom old new 0 t := by
  cases old with
  | nil => exact absurd rfl h
  | cons c cs =>
    have hp : (c :: cs).isPrefixOf (c :: (cs ++ t)) = true := by
      rw [List.isPrefixOf_iff_prefix]
      exact ⟨t, rfl⟩
    have hs := replaceFrom_skip (c :: cs) new cs t
    show replaceFrom (c :: cs) new 0 (c :: (cs ++ t)) = _
    simp only [replaceFrom, hp, if_true, List.length_cons, Nat.add_sub_cancel, hs]

theorem toList_name : "{name}".toList = ['{', 'n', 'a', 'm', 'e', '}'] := rfl
theorem toList_id : "{id}".toList = ['{', 'i', 'd', '}'] := rfl
theorem toList_status : "{status}".toList = ['{', 's', 't', 'a', 't', 'u', 's', '}'] := rfl

/-! ## Decimal rendering -/

theorem digitChar_isDigit (d : Nat) (hd : d < 10) : (Char.ofNat (48 + d)).isDigit = true := by
  interval_cases d <;> decide

theorem formatBits_eq : ∀ (fuel n : Nat) (acc : GoString), 0 < n → n < 10 ^ fuel →
    formatBits fuel n acc
      = (Nat.digits 10 n).reverse.map (fun d => Char.ofNat (48 + d)) ++ acc
  | 0, n, acc, h0, h => by simp at h; omega
  | fuel + 1, n, acc, h0, h => by
    have hd : Nat.digits 10 n = n % 10 :: Nat.digits 10 (n / 10) :=
      Nat.digits_def' (by norm_num) h0
    by_cases hq : n / 10 = 0
    · simp [formatBits, hq, hd]
    · have hlt : n / 10 < 10 ^ fuel := by
        rw [Nat.div_lt_iff_lt_mul (by norm_num)]
        rw [pow_succ] at h
        exact h
      have ih := formatBits_eq fuel (n / 10) (Char.ofNat (48 + n % 10) :: acc)
        (Nat.pos_of_ne_zero hq) hlt
      simp [formatBits, hq, hd, ih]

theorem FormatUint_eq_decimal (n : Nat) : FormatUint n = decimal (n % 2 ^ 64) := by
  unfold FormatUint decimal
  by_cases h : n % 2 ^ 64 = 0
  · rw [h]; rfl
  · have hlt : n % 2 ^ 64 < 10 ^ 20 :=
      lt_trans (Nat.mod_lt _ (by norm_num)) (by norm_num)
    rw [if_neg h, formatBits_eq 20 _ [] (Nat.pos_of_ne_zero h) hlt]
    simp

theorem FormatUint_isDigit (n : Nat) : ∀ c ∈ FormatUint n, c.isDigit = true := by
  intro c hc
  rw [FormatUint_eq_decimal] at hc
  unfold decimal at hc
  split at hc
  · simp at hc; subst hc; decide
  · simp only [List.mem_map, List.mem_reverse] at hc
    obtain ⟨d, hd, rfl⟩ := hc
    exact digitChar_isDigit d (Nat.digits_lt_base (by norm_num) hd)

theorem FormatUint_no_brace (n : Nat) : ∀ c ∈ FormatUint n, c ≠ '{' := by
  intro c hc e
  have h := FormatUint_isDigit n c hc
  rw [e] at h
  exact absurd h (by decide)

/-! ## The three passes of `buildSubject` on a well-formed template -/

/-- One `ReplaceAll` pass over a text made of pieces, each of which is either an
occurrence of `old` or a text the pass copies. -/
theorem pass_pieces (old new : GoString) (hold : old ≠ []) (f g : Piece → GoString) :
    ∀ ps : List Piece,
      (∀ p ∈ ps, (f p = old ∧ g p = new) ∨
        (g p = f p ∧ ∀ t, replaceFrom old new 0 (f p ++ t) = f p ++ replaceFrom old new 0 t)) →
      replaceFrom old new 0 (ps.flatMap f) = ps.flatMap g
  | [], _ => by simp [replaceFrom]
  | p :: ps, h => by
    have ih := pass_pieces old new hold f g ps (fun q hq => h q (List.mem_cons_of_mem _ hq))
    rw [List.flatMap_cons, List.flatMap_cons]
    rcases h p (List.mem_cons_self _ _) with ⟨hf, hg⟩ | ⟨hg, hcopy⟩
    · rw [hf, hg, replaceFrom_match old new hold, ih]
    · rw [hg, hcopy, ih]

theorem replaceFrom_copy_char (h : Char) (old new : GoString) (c : Char) (hc : c ≠ h)
    (t : GoString) :
    replaceFrom (h :: old) new 0 ([c] ++ t) = [c] ++ replaceFrom (h :: old) new 0 t :=
  replaceFrom_copy h old new [c] t (by simpa using hc)

theorem pass_name (work : WorkRequest) (ps : List Piece)
    (h : ∀ c, Piece.lit c ∈ ps → c ≠ '{') :
    replaceFrom "{name}".toList work.Name 0 (templateOf ps)
      = ps.flatMap (Piece.expand work true false false) := by
  apply pass_pieces _ _ (by decide)
  intro p hp
  cases p with
  | lit c => exact Or.inr ⟨rfl, replaceFrom_copy_char _ _ _ c (h c hp)⟩
  | name => exact Or.inl ⟨rfl, rfl⟩
  | id =>
    refine Or.inr ⟨rfl, fun t => ?_⟩
    simp [Piece.text, replaceFrom, List.isPrefixOf]
  | status =>
    refine Or.inr ⟨rfl, fun t => ?_⟩
    simp [Piece.text, replaceFrom, List.isPrefixOf]

theorem pass_id (work : WorkRequest) (ps : List Piece)
    (h : ∀ c, Piece.lit c ∈ ps → c ≠ '{') (hname : ∀ c ∈ work.Name, c ≠ '{') :
    replaceFrom "{id}".toList (FormatUint (work.ID % 2 ^ 64)) 0
        (ps.flatMap (Piece.expand work true false false))
      = ps.flatMap (Piece.expand work true true false) := by
  apply pass_pieces _ _ (by decide)
  intro p hp
  cases p with
  | lit c => exact Or.inr ⟨rfl, replaceFrom_copy_char _ _ _ c (h c hp)⟩
  | name => exact Or.inr ⟨rfl, fun t => replaceFrom_copy _ _ _ _ t hname⟩
  | id => exact Or.inl ⟨rfl, rfl⟩
  | status =>
    refine Or.inr ⟨rfl, fun t => ?_⟩
    simp [Piece.expand, replaceFrom, List.isPrefixOf]

theorem pass_status (work : WorkRequest) (ps : List Piece)
    (h : ∀ c, Piece.lit c ∈ ps → c ≠ '{') (hname : ∀ c ∈ work.Name, c ≠ '{') :
    replaceFrom "{status}".toList work.StatusLabel 0
        (ps.flatMap (Piece.expand work true true false))
      = ps.flatMap (Piece.expand work true true true) := by
  apply pass_pieces _ _ (by decide)
  intro p hp
  cases p with
  | lit c => exact Or.inr ⟨rfl, replaceFrom_copy_char _ _ _ c (h c hp)⟩
  | name => exact Or.inr ⟨rfl, fun t => replaceFrom_copy _ _ _ _ t hname⟩
  | id => exact Or.inr ⟨rfl, fun t => replaceFrom_copy _ _ _ _ t (FormatUint_no_brace _)⟩
  | status => exact Or.inl ⟨rfl, rfl⟩

theorem substitute_pieces (work : WorkRequest) :
    ∀ ps : List Piece, (∀ c, Piece.lit c ∈ ps → c ≠ '{') →
      substitute (templateOf ps) work = ps.flatMap (Piece.expand work true true true)
  | [], _ => by simp [substitute, templateOf, substituteFrom]
  | p :: ps, h => by
    have ih := substitute_pieces work ps (fun c hc => h c (List.mem_cons_of_mem _ hc))
    unfold substitute templateOf at ih ⊢
    rw [List.flatMap_cons, List.flatMap_cons, ← ih]
    cases p with
    | lit c =>
      have hc : '{' ≠ c := fun e => h c (List.mem_cons_self _ _) e.symm
      simp [Piece.text, Piece.expand, substituteFrom, List.isPrefixOf, hc]
    | name => simp [Piece.text, Piece.expand, substituteFrom, List.isPrefixOf]
    | id => simp [Piece.text, Piece.expand, substituteFrom, List.isPrefixOf]
    | status => simp [Piece.text, Piece.expand, substituteFrom, List.isPrefixOf]

/-! ## `buildSubject` -/

theorem ReplaceAll_of_ne_nil (s old new : GoString) (h : old ≠ []) :
    ReplaceAll s old new = replaceFrom old new 0 s := by
  unfold ReplaceAll
  rw [if_neg h]

theorem buildSubject_eq_passes (template : GoString) (work : WorkRequest) :
    buildSubject template work
      = replaceFrom "{status}".toList work.StatusLabel 0
          (replaceFrom "{id}".toList (FormatUint (work.ID % 2 ^ 64)) 0
            (replaceFrom "{name}".toList work.Name 0 template)) := by
  show ReplaceAll (ReplaceAll (ReplaceAll template _ _) _ _) _ _ = _
  rw [ReplaceAll_of_ne_nil _ _ _ (by decide), ReplaceAll_of_ne_nil _ _ _ (by decide),
    ReplaceAll_of_ne_nil _ _ _ (by decide)]

/-- C1 (as stated, refuted): `buildSubject` is not the simultaneous substitution of
the three placeholders.  With the template `{name}` and a request named `{id}`
with id 7 the code returns `7` where the substitution gives `{id}`; and with the
template `{{name}}` and a request named `id` (a name without any brace) the code
returns `7` where the substitution gives `{id}`. -/
theorem buildSubject_ne_substitute :
    (buildSubject "{name}".toList ⟨7, "{id}".toList, "success".toList, fun _ => []⟩
        = "7".toList ∧
      substitute "{name}".toList ⟨7, "{id}".toList, "success".toList, fun _ => []⟩
        = "{id}".toList) ∧
    (buildSubject "\x7b{name}\x7d".toList ⟨7, "id".toList, "success".toList, fun _ => []⟩
        = "7".toList ∧
      substitute "\x7b{name}\x7d".toList ⟨7, "id".toList, "success".toList, fun _ => []⟩
        = "{id}".toList) := by
  decide

/-- C1 (amended): for a template made of placeholders and of literal text without
`{`, and a request whose name contains no `{`, `buildSubject` returns the
simultaneous substitution of the three placeholders by the request's name, the
decimal rendering of its id and its status label: each piece of the template is
replaced by what it stands for and all other text is unchanged. -/
theorem buildSubject_eq_substitute (ps : List Piece) (work : WorkRequest)
    (hps : Piece.lit '{' ∉ ps) (hname : '{' ∉ work.Name) :
    buildSubject (templateOf ps) work = substitute (templateOf ps) work ∧
    buildSubject (templateOf ps) work = ps.flatMap (Piece.expand work true true true) := by
  have hps' : ∀ c, Piece.lit c ∈ ps → c ≠ '{' := fun c hc e => hps (e ▸ hc)
  have hname' : ∀ c ∈ work.Name, c ≠ '{' := fun c hc e => hname (e ▸ hc)
  have h : buildSubject (templateOf ps) work
      = ps.flatMap (Piece.expand work true true true) := by
    rw [buildSubject_eq_passes, pass_name work ps hps', pass_id work ps hps' hname',
      pass_status work ps hps' hname']
  exact ⟨by rw [h, substitute_pieces work ps hps'], h⟩

theorem buildSubject_eq_substitute_witness :
    buildSubject "job {name} #{id}: {status}".toList
        ⟨42, "deploy".toList, "success".toList, fun _ => []⟩
      = "job deploy #42: success".toList := by
  have h := (buildSubject_eq_substitute
    [.lit 'j', .lit 'o', .lit 'b', .lit ' ', .name, .lit ' ', .lit '#', .id, .lit ':',
      .lit ' ', .status]
    ⟨42, "deploy".toList, "success".toList, fun _ => []⟩ (by decide) (by decide)).2
  exact h

/-- A text in which `old` does not occur, followed by a character that is not in
`old`, is copied. -/
theorem replaceFrom_copy_absent (old new : GoString) (c : Char) (t : GoString)
    (hc : c ∉ old) :
    ∀ a : GoString, ¬ old <:+: a →
      replaceFrom old new 0 (a ++ c :: t) = a ++ replaceFrom old new 0 (c :: t)
  | [], _ => by simp
  | x :: a, hinf => by
    have hnp : old.isPrefixOf (x :: (a ++ c :: t)) = false := by
      rw [Bool.eq_false_iff]
      intro hp
      rw [List.isPrefixOf_iff_prefix] at hp
      obtain ⟨r, hr⟩ := hp
      have hr' : old ++ r = (x :: a) ++ c :: t := hr
      rw [List.append_eq_append_iff] at hr'
      rcases hr' with ⟨m, hm, _⟩ | ⟨m, hm, hm2⟩
      · exact hinf ⟨[], m, by simp [hm]⟩
      · cases m with
        | nil => exact hinf ⟨[], [], by simp [hm]⟩
        | cons y m =>
          simp only [List.cons_append, List.cons.injEq] at hm2
          apply hc
          rw [hm, ← hm2.1]
          simp
    have hinf' : ¬ old <:+: a := fun hi => hinf (hi.trans (List.suffix_cons x a).isInfix)
    have ih := replaceFrom_copy_absent old new c t hc a hinf'
    show replaceFrom old new 0 (x :: (a ++ c :: t)) = x :: (a ++ replaceFrom old new 0 (c :: t))
    simp only [replaceFrom, hnp, ih]
    simp

/-- C6: with the default subject template and a request whose name contains
neither `{id}` nor `{status}`, `buildSubject` returns
`[whd-notification] <name>#<id> <status>`, the id being written in base 10 as an
unsigned 64-bit integer, most significant digit first and without leading zeros
(`0` for the id 0). -/
theorem buildSubject_default (work : WorkRequest)
    (hid : ¬ "{id}".toList <:+: work.Name) (hstatus : ¬ "{status}".toList <:+: work.Name) :
    buildSubject "[whd-notification] {name}#{id} {status}".toList work
      = "[whd-notification] ".toList ++ work.Name ++ "#".toList
          ++ decimal (work.ID % 2 ^ 64) ++ " ".toList ++ work.StatusLabel := by
  have hdec : FormatUint (work.ID % 2 ^ 64) = decimal (work.ID % 2 ^ 64) := by
    rw [FormatUint_eq_decimal, Nat.mod_mod]
  have p1 : replaceFrom "{name}".toList work.Name 0
      "[whd-notification] {name}#{id} {status}".toList
      = "[whd-notification] ".toList ++ (work.Name ++ '#' :: "{id} {status}".toList) := rfl
  have p2 : replaceFrom "{id}".toList (FormatUint (work.ID % 2 ^ 64)) 0
      ("[whd-notification] ".toList ++ (work.Name ++ '#' :: "{id} {status}".toList))
      = "[whd-notification] ".toList ++ (work.Name ++ '#' ::
          (FormatUint (work.ID % 2 ^ 64) ++ " {status}".toList)) := by
    rw [toList_id, replaceFrom_copy _ _ _ _ _ (by decide), ← toList_id,
      replaceFrom_copy_absent _ _ _ _ (by decide) _ hid]
    rfl
  have p3 : replaceFrom "{status}".toList work.StatusLabel 0
      ("[whd-notification] ".toList ++ (work.Name ++ '#' ::
          (FormatUint (work.ID % 2 ^ 64) ++ " {status}".toList)))
      = "[whd-notification] ".toList ++ (work.Name ++ '#' ::
          (FormatUint (work.ID % 2 ^ 64) ++ ' ' :: work.StatusLabel)) := by
    rw [toList_status, replaceFrom_copy _ _ _ _ _ (by decide), ← toList_status,
      replaceFrom_copy_absent _ _ _ _ (by decide) _ hstatus]
    have h4 : replaceFrom "{status}".toList work.StatusLabel 0
        ('#' :: (FormatUint (work.ID % 2 ^ 64) ++ " {status}".toList))
        = '#' :: (FormatUint (work.ID % 2 ^ 64)
            ++ replaceFrom "{status}".toList work.StatusLabel 0 " {status}".toList) := by
      rw [toList_status]
      have := replaceFrom_copy '{' ['s', 't', 'a', 't', 'u', 's', '}'] work.StatusLabel
        ('#' :: FormatUint (work.ID % 2 ^ 64)) " {status}".toList (by
          intro c hc
          rcases List.mem_cons.1 hc with rfl | hc
          · decide
          · exact FormatUint_no_brace _ c hc)
      simpa using this
    rw [h4]
    have h5 : replaceFrom "{status}".toList work.StatusLabel 0 " {status}".toList
        = ' ' :: work.StatusLabel := by
      simp [replaceFrom, List.isPrefixOf]
    rw [h5]
  rw [buildSubject_eq_passes, p1, p2, p3, hdec]
  simp

theorem buildSubject_default_witness :
    buildSubject "[whd-notification] {name}#{id} {status}".toList
        ⟨1024, "a{b}".toList, "error".toList, fun _ => []⟩
      = "[whd-notification] a{b}#1024 error".toList := by
  have h := buildSubject_default ⟨1024, "a{b}".toList, "error".toList, fun _ => []⟩
    (by decide) (by decide)
  rw [h]
  norm_num [decimal]

/-! ## `buildEmailPayload` -/

theorem TrimSpace_eq_nil_iff (s : GoString) :
    TrimSpace s = [] ↔ ∀ c ∈ s, isSpace c = true := by
  unfold TrimSpace
  rw [List.reverse_eq_nil_iff, List.dropWhile_eq_nil_iff]
  constructor
  · intro h
    have hnil : s.dropWhile isSpace = [] := by
      cases hd : s.dropWhile isSpace with
      | nil => rfl
      | cons x xs =>
        have hx : isSpace x = true := h x (by rw [hd]; simp)
        have hne : s.dropWhile isSpace ≠ [] := by rw [hd]; simp
        have := List.head_dropWhile_not isSpace s hne
        simp only [hd, List.head_cons] at this
        rw [hx] at this
        exact absurd this (by simp)
    exact List.dropWhile_eq_nil_iff.1 hnil
  · intro h c hc
    rw [List.mem_reverse] at hc
    exact h c ((List.dropWhile_sublist isSpace).subset hc)

/-- The headers map of `buildEmailPayload` after its three assignments. -/
theorem headers_eq (a b c : GoString) :
    GoMap.set (GoMap.set (GoMap.set [] "From".toList a) "To".toList b) "Subject".toList c
      = [("From".toList, a), ("To".toList, b), ("Subject".toList, c)] := by
  simp [GoMap.set]

theorem foldl_headerLine (es : GoMap) (acc : GoString) :
    es.foldl (fun payload e => payload ++ headerLine e.1 e.2) acc
      = acc ++ (es.map fun e => headerLine e.1 e.2).flatten := by
  induction es generalizing acc with
  | nil => simp
  | cons e es ih => simp [ih]

theorem buildEmailPayload_of_body (n : SMTPNotifier) (work : WorkRequest) (ord : RangeOrder)
    (h : TrimSpace (work.GetLogContent n.PrefixFilter) ≠ []) :
    n.buildEmailPayload work ord
      = ((ord.pick [("From".toList, n.From), ("To".toList, n.To),
            ("Subject".toList, buildSubject n.Subject work)]).map
          fun e => headerLine e.1 e.2).flatten
        ++ ("\r\n".toList ++ work.GetLogContent n.PrefixFilter) := by
  unfold SMTPNotifier.buildEmailPayload
  simp only [if_neg h, headers_eq, foldl_headerLine, List.nil_append]

/-- C7: `buildEmailPayload` returns the empty string exactly when the extracted
body is blank (it is empty once trimmed, that is, all its characters are white
space).  Otherwise the payload is the three header lines `From`, `To` and
`Subject` in some order, then an empty line, then the body untrimmed; its length
does not depend on the order of the headers. -/
theorem buildEmailPayload_spec (n : SMTPNotifier) (work : WorkRequest) (ord : RangeOrder) :
    (n.buildEmailPayload work ord = [] ↔ TrimSpace (work.GetLogContent n.PrefixFilter) = []) ∧
    (n.buildEmailPayload work ord = [] ↔
      ∀ c ∈ work.GetLogContent n.PrefixFilter, isSpace c = true) ∧
    (TrimSpace (work.GetLogContent n.PrefixFilter) ≠ [] →
      (∃ hs : List GoString,
        hs.Perm ["From: ".toList ++ n.From ++ "\r\n".toList,
          "To: ".toList ++ n.To ++ "\r\n".toList,
          "Subject: ".toList ++ buildSubject n.Subject work ++ "\r\n".toList] ∧
        n.buildEmailPayload work ord
          = hs.flatten ++ "\r\n".toList ++ work.GetLogContent n.PrefixFilter) ∧
      (n.buildEmailPayload work ord).length
        = (6 + n.From.length + 2) + (4 + n.To.length + 2)
          + (9 + (buildSubject n.Subject work).length + 2) + 2
          + (work.GetLogContent n.PrefixFilter).length) := by
  have hiff : n.buildEmailPayload work ord = [] ↔
      TrimSpace (work.GetLogContent n.PrefixFilter) = [] := by
    constructor
    · intro h
      by_contra hb
      rw [buildEmailPayload_of_body n work ord hb] at h
      simp at h
    · intro h
      unfold SMTPNotifier.buildEmailPayload
      simp only [if_pos h]
  refine ⟨hiff, hiff.trans (TrimSpace_eq_nil_iff _), fun hb => ?_⟩
  have hperm := (ord.perm [("From".toList, n.From), ("To".toList, n.To),
    ("Subject".toList, buildSubject n.Subject work)]).map fun e => headerLine e.1 e.2
  rw [buildEmailPayload_of_body n work ord hb]
  refine ⟨⟨_, ?_, by rw [List.append_assoc]⟩, ?_⟩
  · simpa [headerLine] using hperm
  · rw [List.length_append, List.length_flatten, (hperm.map List.length).sum_eq]
    simp [headerLine]
    omega

/-! ## Header lines of the payload -/

theorem replaceFrom_forall (P : Char → Prop) (old new : GoString) (hnew : ∀ c ∈ new, P c) :
    ∀ (s : GoString) (k : Nat), (∀ c ∈ s, P c) → ∀ c ∈ replaceFrom old new k s, P c
  | [], k, _ => by
    cases k <;> simp [replaceFrom]
  | x :: s, 0, hs => by
    have ih0 := replaceFrom_forall P old new hnew s 0 (fun c hc => hs c (List.mem_cons_of_mem _ hc))
    have ihk := replaceFrom_forall P old new hnew s (old.length - 1)
      (fun c hc => hs c (List.mem_cons_of_mem _ hc))
    intro c hc
    simp only [replaceFrom] at hc
    split at hc
    · rcases List.mem_append.1 hc with h | h
      · exact hnew c h
      · exact ihk c h
    · rcases List.mem_cons.1 hc with h | h
      · exact h ▸ hs x (List.mem_cons_self _ _)
      · exact ih0 c h
  | x :: s, k + 1, hs => by
    have ih := replaceFrom_forall P old new hnew s k (fun c hc => hs c (List.mem_cons_of_mem _ hc))
    intro c hc
    simp only [replaceFrom] at hc
    exact ih c hc

theorem noLineBreak_iff (s : GoString) : noLineBreak s ↔ ∀ c ∈ s, c ≠ '\r' ∧ c ≠ '\n' := by
  unfold noLineBreak
  constructor
  · intro h c hc
    exact ⟨fun e => h.1 (e ▸ hc), fun e => h.2 (e ▸ hc)⟩
  · intro h
    exact ⟨fun hc => (h _ hc).1 rfl, fun hc => (h _ hc).2 rfl⟩

theorem FormatUint_noLineBreak (n : Nat) : noLineBreak (FormatUint n) := by
  rw [noLineBreak_iff]
  intro c hc
  have h := FormatUint_isDigit n c hc
  constructor <;> intro e <;> rw [e] at h <;> exact absurd h (by decide)

theorem buildSubject_noLineBreak (template : GoString) (work : WorkRequest)
    (ht : noLineBreak template) (hn : noLineBreak work.Name)
    (hs : noLineBreak work.StatusLabel) : noLineBreak (buildSubject template work) := by
  rw [noLineBreak_iff] at ht hn hs ⊢
  rw [buildSubject_eq_passes]
  apply replaceFrom_forall _ _ _ hs
  apply replaceFrom_forall _ _ _ ((noLineBreak_iff _).1 (FormatUint_noLineBreak _))
  exact replaceFrom_forall _ _ _ hn _ _ ht

theorem Cut_copy (h : Char) (sep : GoString) :
    ∀ (a t : GoString), (∀ c ∈ a, c ≠ h) →
      Cut (h :: sep) (a ++ t) = (Cut (h :: sep) t).map fun r => (a ++ r.1, r.2)
  | [], t, _ => by simp
  | c :: a, t, ha => by
    have hc : h ≠ c := fun e => ha c (List.mem_cons_self _ _) e.symm
    have ih := Cut_copy h sep a t (fun x hx => ha x (List.mem_cons_of_mem _ hx))
    simp [Cut, List.isPrefixOf, hc, ih, Function.comp_def]

/-- After a header line that is followed by another header line, the search for
the empty line goes on. -/
theorem Cut_line (l t : GoString) (c : Char) (hl : '\r' ∉ l) (hc : c ≠ '\r') :
    Cut "\r\n\r\n".toList (l ++ "\r\n".toList ++ c :: t)
      = (Cut "\r\n\r\n".toList (c :: t)).map fun r => (l ++ "\r\n".toList ++ r.1, r.2) := by
  have hl' : ∀ x ∈ l, x ≠ '\r' := fun x hx e => hl (e ▸ hx)
  have hc' : '\r' ≠ c := fun e => hc e.symm
  have h := Cut_copy '\r' ['\n', '\r', '\n'] l ("\r\n".toList ++ c :: t) hl'
  rw [List.append_assoc]
  show Cut ('\r' :: ['\n', '\r', '\n']) _ = _
  rw [h]
  simp [Cut, List.isPrefixOf, hc', Function.comp_def]

/-- After the last header line comes the empty line, then the body. -/
theorem Cut_last (l body : GoString) (hl : '\r' ∉ l) :
    Cut "\r\n\r\n".toList (l ++ "\r\n".toList ++ ("\r\n".toList ++ body)) = some (l, body) := by
  have hl' : ∀ x ∈ l, x ≠ '\r' := fun x hx e => hl (e ▸ hx)
  have h := Cut_copy '\r' ['\n', '\r', '\n'] l ("\r\n".toList ++ ("\r\n".toList ++ body)) hl'
  rw [List.append_assoc]
  show Cut ('\r' :: ['\n', '\r', '\n']) _ = _
  rw [h]
  simp [Cut, List.isPrefixOf]

/-- What `Cut` returns is the first occurrence of the separator. -/
theorem Cut_first (sep : GoString) :
    ∀ (s before after : GoString), Cut sep s = some (before, after) →
      s = before ++ sep ++ after ∧
      ∀ b a, s = b ++ sep ++ a → before.length ≤ b.length
  | [], before, after, h => by
    simp only [Cut] at h
    split at h
    · rename_i hs
      simp only [Option.some.injEq, Prod.mk.injEq] at h
      simp [← h.1, ← h.2, hs]
    · exact absurd h (by simp)
  | c :: cs, before, after, h => by
    simp only [Cut] at h
    split at h
    · rename_i hp
      simp only [Option.some.injEq, Prod.mk.injEq] at h
      rw [List.isPrefixOf_iff_prefix] at hp
      obtain ⟨r, hr⟩ := hp
      refine ⟨?_, fun b a _ => by simp [← h.1]⟩
      rw [← h.1, ← h.2, ← hr]
      simp
    · rename_i hp
      cases hcut : Cut sep cs with
      | none => simp [hcut] at h
      | some r =>
        simp only [hcut, Option.map_some', Option.some.injEq, Prod.mk.injEq] at h
        obtain ⟨h1, h2⟩ := Cut_first sep cs r.1 r.2 (by simp [hcut])
        refine ⟨by rw [← h.1, ← h.2]; simp only [List.cons_append]; rw [← h1], ?_⟩
        intro b a hba
        cases b with
        | nil =>
          exfalso
          apply hp
          rw [List.isPrefixOf_iff_prefix]
          exact ⟨a, by simpa using hba.symm⟩
        | cons y b =>
          simp only [List.cons_append, List.cons.injEq] at hba
          have := h2 b a hba.2
          rw [← h.1]
          simpa using this

theorem Cut_three (l1 l2 l3 body : GoString) (h1 : '\r' ∉ l1) (h2 : '\r' ∉ l2)
    (h3 : '\r' ∉ l3) (n2 : l2 ≠ []) (n3 : l3 ≠ []) :
    Cut "\r\n\r\n".toList
        (l1 ++ "\r\n".toList ++ (l2 ++ "\r\n".toList ++ (l3 ++ "\r\n".toList
          ++ ("\r\n".toList ++ body))))
      = some (l1 ++ "\r\n".toList ++ (l2 ++ "\r\n".toList ++ l3), body) := by
  cases l2 with
  | nil => exact absurd rfl n2
  | cons c2 t2 =>
    cases l3 with
    | nil => exact absurd rfl n3
    | cons c3 t3 =>
      have hc2 : c2 ≠ '\r' := fun e => h2 (e ▸ List.mem_cons_self _ _)
      have hc3 : c3 ≠ '\r' := fun e => h3 (e ▸ List.mem_cons_self _ _)
      have e3 := Cut_last (c3 :: t3) body h3
      have e2 := Cut_line (c2 :: t2) (t3 ++ "\r\n".toList ++ ("\r\n".toList ++ body)) c3 h2 hc3
      have e1 := Cut_line l1 (t2 ++ "\r\n".toList ++ (c3 :: t3 ++ "\r\n".toList
        ++ ("\r\n".toList ++ body))) c2 h1 hc2
      simp only [List.cons_append, List.append_assoc] at e1 e2 e3 ⊢
      rw [e1, e2, e3]
      simp

/-- C10: when the notifier's `From`, `To` and `Subject` and the request's name
and status label contain no carriage return and no line feed, the payload of a
request with a non-blank body splits at its first empty line (`\r\n\r\n`) into
three header lines without line break, separated by `\r\n` (the lines `From: `,
`To: ` and `Subject: ` in some order), and the extracted body, unchanged. -/
theorem payload_header_boundary (n : SMTPNotifier) (work : WorkRequest) (ord : RangeOrder)
    (hbody : TrimSpace (work.GetLogContent n.PrefixFilter) ≠ [])
    (hfrom : noLineBreak n.From) (hto : noLineBreak n.To) (hsubject : noLineBreak n.Subject)
    (hname : noLineBreak work.Name) (hstatus : noLineBreak work.StatusLabel) :
    ∃ l1 l2 l3 : GoString,
      [l1, l2, l3].Perm ["From: ".toList ++ n.From, "To: ".toList ++ n.To,
        "Subject: ".toList ++ buildSubject n.Subject work] ∧
      noLineBreak l1 ∧ noLineBreak l2 ∧ noLineBreak l3 ∧
      Cut "\r\n\r\n".toList (n.buildEmailPayload work ord)
        = some (l1 ++ "\r\n".toList ++ (l2 ++ "\r\n".toList ++ l3),
            work.GetLogContent n.PrefixFilter) ∧
      n.buildEmailPayload work ord
        = (l1 ++ "\r\n".toList ++ (l2 ++ "\r\n".toList ++ l3)) ++ "\r\n\r\n".toList
            ++ work.GetLogContent n.PrefixFilter ∧
      ∀ before after, n.buildEmailPayload work ord = before ++ "\r\n\r\n".toList ++ after →
        (l1 ++ "\r\n".toList ++ (l2 ++ "\r\n".toList ++ l3)).length ≤ before.length := by
  have hperm := ord.perm [("From".toList, n.From), ("To".toList, n.To),
    ("Subject".toList, buildSubject n.Subject work)]
  have hlen := hperm.length_eq
  obtain ⟨e1, e2, e3, hpick⟩ := List.length_eq_three.1 hlen
  have hsubj := buildSubject_noLineBreak n.Subject work hsubject hname hstatus
  -- every entry of the map gives a non-empty line without line break
  have hline : ∀ e ∈ [("From".toList, n.From), ("To".toList, n.To),
      ("Subject".toList, buildSubject n.Subject work)],
      noLineBreak (e.1 ++ ": ".toList ++ e.2) ∧ e.1 ++ ": ".toList ++ e.2 ≠ [] := by
    intro e he
    simp only [List.mem_cons, List.mem_singleton, List.not_mem_nil, or_false] at he
    unfold noLineBreak at hfrom hto hsubj ⊢
    rcases he with rfl | rfl | rfl
    · simp [hfrom.1, hfrom.2]
    · simp [hto.1, hto.2]
    · simp [hsubj.1, hsubj.2]
  have hmem : ∀ e ∈ [e1, e2, e3],
      noLineBreak (e.1 ++ ": ".toList ++ e.2) ∧ e.1 ++ ": ".toList ++ e.2 ≠ [] := by
    intro e he
    rw [← hpick] at he
    exact hline e (hperm.mem_iff.1 he)
  have q1 := hmem e1 (by simp)
  have q2 := hmem e2 (by simp)
  have q3 := hmem e3 (by simp)
  have hpay : n.buildEmailPayload work ord
      = (e1.1 ++ ": ".toList ++ e1.2) ++ "\r\n".toList
        ++ ((e2.1 ++ ": ".toList ++ e2.2) ++ "\r\n".toList
          ++ ((e3.1 ++ ": ".toList ++ e3.2) ++ "\r\n".toList
            ++ ("\r\n".toList ++ work.GetLogContent n.PrefixFilter))) := by
    rw [buildEmailPayload_of_body n work ord hbody, hpick]
    simp [headerLine]
  have hcut := Cut_three _ _ _ (work.GetLogContent n.PrefixFilter) q1.1.1 q2.1.1 q3.1.1
    q2.2 q3.2
  rw [← hpay] at hcut
  have hfirst := Cut_first _ _ _ _ hcut
  refine ⟨_, _, _, ?_, q1.1, q2.1, q3.1, hcut, hfirst.1, hfirst.2⟩
  have hp := hperm.map fun e => e.1 ++ ": ".toList ++ e.2
  rw [hpick] at hp
  simpa using hp

/-! ## `Notify` -/

theorem runOps_cons (net : Net) (op : Op) (ops : List Op) :
    runOps net (op :: ops) = fun done => call net op done (runOps net ops) := rfl

theorem runOps_nil (net : Net) : runOps net [] = fun done => (done, none) := rfl

theorem runOps_or (net : Net) (x y z : GoString) (op : Op) (ops : List Op) :
    runOps net ((if x = y ∨ x = z then [op] else []) ++ ops)
      = fun done => callIf (decide (x = y) || decide (x = z)) net op done (runOps net ops) := by
  funext done
  by_cases h : x = y ∨ x = z
  · simp only [if_pos h, callIf]
    rw [if_pos (by simpa using h)]
    rfl
  · simp only [if_neg h, callIf]
    rw [if_neg (by simpa using h)]
    rfl

theorem runOps_ne (net : Net) (x y : GoString) (op : Op) (ops : List Op) :
    runOps net ((if x ≠ y then [op] else []) ++ ops)
      = fun done => callIf (x != y) net op done (runOps net ops) := by
  funext done
  by_cases h : x = y
  · simp [h, callIf]
  · simp [h, callIf, runOps_cons]

/-- `Notify` performs the operations of `expectedOps` in order and stops at the
first failure. -/
theorem Notify_eq_runOps (n : SMTPNotifier) (work : WorkRequest) (ord : RangeOrder)
    (net : Net) (h : n.buildEmailPayload work ord ≠ []) :
    n.Notify work ord net
      = runOps net
          (expectedOps n (net.SplitHostPort n.Host) (n.buildEmailPayload work ord)) [] := by
  unfold SMTPNotifier.Notify expectedOps
  simp only [if_neg h, List.append_assoc, List.cons_append, List.nil_append, runOps_cons,
    runOps_or, runOps_ne, runOps_nil]

theorem runOps_all_succeed (net : Net) :
    ∀ (ops done : List Op),
      (∀ i op, ops[i]? = some op → net.outcome (done ++ ops.take i) op = none) →
      runOps net ops done = (done ++ ops, none)
  | [], done, _ => by simp [runOps]
  | op :: ops, done, h => by
    have h0 : net.outcome done op = none := by simpa using h 0 op (by simp)
    have ih := runOps_all_succeed net ops (done ++ [op]) (fun i o hi => by
      have := h (i + 1) o (by simpa using hi)
      simpa using this)
    simp only [runOps, h0, ih]
    simp

theorem runOps_first_failure (net : Net) :
    ∀ (ops done : List Op) (i : Nat) (op : Op) (err : NetError),
      ops[i]? = some op →
      (∀ j o, j < i → ops[j]? = some o → net.outcome (done ++ ops.take j) o = none) →
      net.outcome (done ++ ops.take i) op = some err →
      runOps net ops done
        = (done ++ ops.take (i + 1) ++ cleanup net (done ++ ops.take i) op, some err)
  | [], done, i, op, err, hi, _, _ => by simp at hi
  | x :: ops, done, 0, op, err, hi, _, hfail => by
    simp only [List.getElem?_cons_zero, Option.some.injEq] at hi
    subst hi
    simp only [List.take_zero, List.append_nil] at hfail
    simp [runOps, hfail]
  | x :: ops, done, i + 1, op, err, hi, hbefore, hfail => by
    have h0 : net.outcome done x = none := by simpa using hbefore 0 x (Nat.succ_pos i) (by simp)
    have ih := runOps_first_failure net ops (done ++ [x]) i op err (by simpa using hi)
      (fun j o hj ho => by
        have := hbefore (j + 1) o (Nat.succ_lt_succ hj) (by simpa using ho)
        simpa using this)
      (by simpa using hfail)
    simp only [runOps, h0, ih]
    simp

theorem runOps_none (net : Net) :
    ∀ (ops done : List Op), (runOps net ops done).2 = none →
      ∀ i op, ops[i]? = some op → net.outcome (done ++ ops.take i) op = none
  | [], _, _, i, op, hi => by simp at hi
  | x :: ops, done, h, i, op, hi => by
    cases h0 : net.outcome done x with
    | some err => simp [runOps, h0] at h
    | none =>
      simp only [runOps, h0] at h
      cases i with
      | zero =>
        simp only [List.getElem?_cons_zero, Option.some.injEq] at hi
        subst hi
        simpa using h0
      | succ i =>
        have := runOps_none net ops (done ++ [x]) h i op (by simpa using hi)
        simpa using this

theorem buildEmailPayload_ne_nil (n : SMTPNotifier) (work : WorkRequest) (ord : RangeOrder)
    (h : TrimSpace (work.GetLogContent n.PrefixFilter) ≠ []) :
    n.buildEmailPayload work ord ≠ [] := by
  rw [buildEmailPayload_of_body n work ord h]
  simp

/-- C2: when the extracted body is the empty string, `buildEmailPayload` returns
the empty string and `Notify` returns `nil` without performing any network
operation. -/
theorem Notify_empty_body (n : SMTPNotifier) (work : WorkRequest) (ord : RangeOrder)
    (net : Net) (h : work.GetLogContent n.PrefixFilter = []) :
    n.buildEmailPayload work ord = [] ∧ n.Notify work ord net = ([], none) := by
  have hp : n.buildEmailPayload work ord = [] := by
    unfold SMTPNotifier.buildEmailPayload
    simp [h, TrimSpace]
  refine ⟨hp, ?_⟩
  unfold SMTPNotifier.Notify
  simp [hp]

theorem Notify_empty_body_witness :
    exampleNotifier.buildEmailPayload ⟨1, "job".toList, "error".toList, fun _ => []⟩
        reverseOrder = [] ∧
    exampleNotifier.Notify ⟨1, "job".toList, "error".toList, fun _ => []⟩ reverseOrder
        (netFailingAt none AuthFailure.hello) = ([], none) :=
  Notify_empty_body exampleNotifier ⟨1, "job".toList, "error".toList, fun _ => []⟩
    reverseOrder (netFailingAt none AuthFailure.hello) rfl

/-- C8: for a request with a non-blank body, when every operation of the delivery
succeeds, `Notify` performs exactly, in this order: dial of `Host` over TCP,
client creation for the host part of `Host`, StartTLS if and only if `Conn` is
`tls` or `tls-insecure` (verification disabled if and only if `Conn` is
`tls-insecure`, server name the host part), Auth if and only if `Username` is not
empty, Mail(From), Rcpt(To), Data, the write of the payload of
`buildEmailPayload`, the close of the data writer, Quit; and it returns `nil`. -/
theorem Notify_success_trace (n : SMTPNotifier) (work : WorkRequest) (ord : RangeOrder)
    (net : Net) (hbody : TrimSpace (work.GetLogContent n.PrefixFilter) ≠ [])
    (hok : ∀ i op,
      (expectedOps n (net.SplitHostPort n.Host) (n.buildEmailPayload work ord))[i]? = some op →
      net.outcome
        ((expectedOps n (net.SplitHostPort n.Host) (n.buildEmailPayload work ord)).take i) op
        = none) :
    n.Notify work ord net
      = ([Op.dial "tcp".toList n.Host 5, Op.newClient (net.SplitHostPort n.Host)]
          ++ (if n.Conn = "tls".toList ∨ n.Conn = "tls-insecure".toList then
                [Op.startTLS (decide (n.Conn = "tls-insecure".toList))
                  (net.SplitHostPort n.Host)]
              else [])
          ++ (if n.Username ≠ [] then
                [Op.auth [] n.Username n.Password (net.SplitHostPort n.Host)]
              else [])
          ++ [Op.mail n.From, Op.rcpt n.To, Op.data,
              Op.write (n.buildEmailPayload work ord), Op.close, Op.quit], none) := by
  rw [Notify_eq_runOps n work ord net (buildEmailPayload_ne_nil n work ord hbody),
    runOps_all_succeed net _ [] (by simpa using hok)]
  rfl

/-- A failing Mail or Rcpt comes before any write and before Quit. -/
theorem expectedOps_take_mail (n : SMTPNotifier) (hostname payload : GoString) (i : Nat)
    (op : Op) (hi : (expectedOps n hostname payload)[i]? = some op)
    (hop : op = Op.mail n.From ∨ op = Op.rcpt n.To) :
    ∀ o ∈ (expectedOps n hostname payload).take (i + 1), o ≠ Op.quit ∧ ∀ p, o ≠ Op.write p := by
  unfold expectedOps at hi ⊢
  by_cases htls : n.Conn = "tls".toList ∨ n.Conn = "tls-insecure".toList <;>
    by_cases huser : n.Username = [] <;>
    simp only [htls, huser, ne_eq, not_true_eq_false, not_false_eq_true,
      if_true, if_false, List.append_nil, List.cons_append, List.nil_append] at hi ⊢ <;>
    rcases i with _ | _ | _ | _ | _ | _ | _ | _ | _ | _ | i <;>
    simp at hi <;>
    subst hi <;>
    simp at hop ⊢

theorem cleanup_subset (net : Net) (done : List Op) (op : Op) :
    ∀ o ∈ cleanup net done op, o = Op.abort ∨ o = Op.quit := by
  intro o ho
  unfold cleanup at ho
  split at ho
  · split at ho <;> simp at ho <;> simp [ho]
  · simp at ho

theorem cleanup_of_not_auth (net : Net) (done : List Op) (op : Op)
    (h : ∀ a b c d, op ≠ Op.auth a b c d) : cleanup net done op = [] := by
  unfold cleanup
  split
  · exact absurd rfl (h _ _ _ _)
  · rfl

/-- C9 (as stated, refuted): a failed Auth is followed by a Quit.  For a notifier
with a user name and the connection `plain`, when the Auth call fails because the
mechanism refuses to start, the operations performed are dial, client creation,
Auth and then Quit, sent by the Auth call itself; and with the connection `tls`,
when the server rejects the authentication, Auth is followed by `*` and Quit. -/
theorem Notify_failed_auth_sends_quit :
    (newSMTPNotifier ⟨"ops@example.org".toList,
        [("smtp".toList, "mail.example.org:25".toList), ("username".toList, "bob".toList),
          ("password".toList, "secret".toList)]⟩).Notify exampleWork reverseOrder
        (netFailingAt
          (some (Op.auth [] "bob".toList "secret".toList "mail.example.org".toList))
          AuthFailure.start)
      = ([Op.dial "tcp".toList "mail.example.org:25".toList 5,
          Op.newClient "mail.example.org".toList,
          Op.auth [] "bob".toList "secret".toList "mail.example.org".toList,
          Op.quit], some "refused".toList) ∧
    exampleNotifier.Notify exampleWork reverseOrder
        (netFailingAt
          (some (Op.auth [] "bob".toList "secret".toList "mail.example.org".toList))
          AuthFailure.rejected)
      = ([Op.dial "tcp".toList "mail.example.org:587".toList 5,
          Op.newClient "mail.example.org".toList,
          Op.startTLS false "mail.example.org".toList,
          Op.auth [] "bob".toList "secret".toList "mail.example.org".toList,
          Op.abort, Op.quit], some "refused".toList) := by
  decide

/-- C9 (amended): for a request with a non-blank body, `Notify` returns `nil` only
if every operation of the delivery succeeded (and then all of them were
performed).  If an operation fails after all the operations before it succeeded,
`Notify` returns the error of that operation and calls no later operation; what
follows the failing operation is only what the failing call did on its own, which
is nothing unless the operation is Auth, and for Auth at most the abort line `*`
and a Quit.  In particular after a failed Mail or Rcpt nothing is written and no
Quit is sent. -/
theorem Notify_first_error (n : SMTPNotifier) (work : WorkRequest) (ord : RangeOrder)
    (net : Net) (hbody : TrimSpace (work.GetLogContent n.PrefixFilter) ≠ []) :
    ((n.Notify work ord net).2 = none →
      (n.Notify work ord net).1
          = expectedOps n (net.SplitHostPort n.Host) (n.buildEmailPayload work ord) ∧
      ∀ i op,
        (expectedOps n (net.SplitHostPort n.Host) (n.buildEmailPayload work ord))[i]? = some op →
        net.outcome
          ((expectedOps n (net.SplitHostPort n.Host) (n.buildEmailPayload work ord)).take i) op
          = none) ∧
    (∀ i op err,
      (expectedOps n (net.SplitHostPort n.Host) (n.buildEmailPayload work ord))[i]? = some op →
      (∀ j o, j < i →
        (expectedOps n (net.SplitHostPort n.Host) (n.buildEmailPayload work ord))[j]? = some o →
        net.outcome
          ((expectedOps n (net.SplitHostPort n.Host) (n.buildEmailPayload work ord)).take j) o
          = none) →
      net.outcome
          ((expectedOps n (net.SplitHostPort n.Host) (n.buildEmailPayload work ord)).take i) op
        = some err →
      n.Notify work ord net
        = ((expectedOps n (net.SplitHostPort n.Host) (n.buildEmailPayload work ord)).take (i + 1)
            ++ cleanup net
              ((expectedOps n (net.SplitHostPort n.Host) (n.buildEmailPayload work ord)).take i)
              op,
            some err) ∧
      (∀ o ∈ cleanup net
          ((expectedOps n (net.SplitHostPort n.Host) (n.buildEmailPayload work ord)).take i) op,
        o = Op.abort ∨ o = Op.quit) ∧
      ((∀ a b c d, op ≠ Op.auth a b c d) →
        n.Notify work ord net
          = ((expectedOps n (net.SplitHostPort n.Host)
              (n.buildEmailPayload work ord)).take (i + 1), some err)) ∧
      (op = Op.mail n.From ∨ op = Op.rcpt n.To →
        ∀ o ∈ (n.Notify work ord net).1, o ≠ Op.quit ∧ ∀ p, o ≠ Op.write p)) := by
  have heq := Notify_eq_runOps n work ord net (buildEmailPayload_ne_nil n work ord hbody)
  constructor
  · intro hnil
    rw [heq] at hnil
    have hall := runOps_none net _ [] hnil
    simp only [List.nil_append] at hall
    refine ⟨?_, hall⟩
    rw [heq, runOps_all_succeed net _ [] (by simpa using hall)]
    rfl
  · intro i op err hi hbefore hfail
    have hrun : n.Notify work ord net
        = ((expectedOps n (net.SplitHostPort n.Host) (n.buildEmailPayload work ord)).take (i + 1)
            ++ cleanup net
              ((expectedOps n (net.SplitHostPort n.Host) (n.buildEmailPayload work ord)).take i)
              op,
            some err) := by
      rw [heq, runOps_first_failure net _ [] i op err hi (by simpa using hbefore)
        (by simpa using hfail)]
      simp
    have hplain : (∀ a b c d, op ≠ Op.auth a b c d) →
        n.Notify work ord net
          = ((expectedOps n (net.SplitHostPort n.Host)
              (n.buildEmailPayload work ord)).take (i + 1), some err) := by
      intro hna
      rw [hrun, cleanup_of_not_auth net _ op hna, List.append_nil]
    refine ⟨hrun, cleanup_subset net _ op, hplain, fun hop => ?_⟩
    have hna : ∀ a b c d, op ≠ Op.auth a b c d := by
      intro a b c d e
      rcases hop with h | h <;> rw [h] at e <;> exact Op.noConfusion e
    rw [hplain hna]
    exact expectedOps_take_mail n _ _ i op hi hop

theorem buildEmailPayload_spec_witness :
    (exampleNotifier.buildEmailPayload exampleWork reverseOrder).length = 100 :=
  ((buildEmailPayload_spec exampleNotifier exampleWork reverseOrder).2.2 (by decide)).2.trans
    (by decide)

theorem payload_header_boundary_witness :
    ∃ l1 l2 l3 : GoString,
      [l1, l2, l3].Perm ["From: ".toList ++ exampleNotifier.From,
        "To: ".toList ++ exampleNotifier.To,
        "Subject: ".toList ++ buildSubject exampleNotifier.Subject exampleWork] ∧
      noLineBreak l1 ∧ noLineBreak l2 ∧ noLineBreak l3 ∧
      Cut "\r\n\r\n".toList (exampleNotifier.buildEmailPayload exampleWork reverseOrder)
        = some (l1 ++ "\r\n".toList ++ (l2 ++ "\r\n".toList ++ l3),
            exampleWork.GetLogContent exampleNotifier.PrefixFilter) ∧
      exampleNotifier.buildEmailPayload exampleWork reverseOrder
        = (l1 ++ "\r\n".toList ++ (l2 ++ "\r\n".toList ++ l3)) ++ "\r\n\r\n".toList
            ++ exampleWork.GetLogContent exampleNotifier.PrefixFilter ∧
      ∀ before after,
        exampleNotifier.buildEmailPayload exampleWork reverseOrder
          = before ++ "\r\n\r\n".toList ++ after →
        (l1 ++ "\r\n".toList ++ (l2 ++ "\r\n".toList ++ l3)).length ≤ before.length :=
  payload_header_boundary exampleNotifier exampleWork reverseOrder (by decide) (by decide)
    (by decide) (by decide) (by decide) (by decide)

theorem Notify_success_trace_witness :
    exampleNotifier.Notify exampleWork reverseOrder (netFailingAt none AuthFailure.hello)
      = ([Op.dial "tcp".toList "mail.example.org:587".toList 5,
          Op.newClient "mail.example.org".toList,
          Op.startTLS false "mail.example.org".toList,
          Op.auth [] "bob".toList "secret".toList "mail.example.org".toList,
          Op.mail "noreply@nunux.org".toList, Op.rcpt "ops@example.org".toList, Op.data,
          Op.write (exampleNotifier.buildEmailPayload exampleWork reverseOrder),
          Op.close, Op.quit], none) :=
  (Notify_success_trace exampleNotifier exampleWork reverseOrder (netFailingAt none AuthFailure.hello)
    (by decide) (fun _ _ _ => rfl)).trans (by decide)

theorem Notify_first_error_witness :
    exampleNotifier.Notify exampleWork reverseOrder
        (netFailingAt (some Op.data) AuthFailure.rejected)
      = ([Op.dial "tcp".toList "mail.example.org:587".toList 5,
          Op.newClient "mail.example.org".toList,
          Op.startTLS false "mail.example.org".toList,
          Op.auth [] "bob".toList "secret".toList "mail.example.org".toList,
          Op.mail "noreply@nunux.org".toList, Op.rcpt "ops@example.org".toList, Op.data],
        some "refused".toList) ∧
    ((exampleNotifier.Notify exampleWork reverseOrder
          (netFailingAt none AuthFailure.hello)).2 = none →
      (exampleNotifier.Notify exampleWork reverseOrder
          (netFailingAt none AuthFailure.hello)).1.length = 10) := by
  constructor
  · refine ((Notify_first_error exampleNotifier exampleWork reverseOrder
      (netFailingAt (some Op.data) AuthFailure.rejected) (by decide)).2 6 Op.data
      "refused".toList (by decide) ?_ (by decide)).1.trans (by decide)
    intro j o hj ho
    have hne : o ≠ Op.data := by
      interval_cases j <;> simp [expectedOps, exampleNotifier, newSMTPNotifier,
        getValueOrAlt, List.lookup] at ho <;> subst ho <;> simp
    simp [netFailingAt, hne]
  · intro h
    rw [((Notify_first_error exampleNotifier exampleWork reverseOrder
      (netFailingAt none AuthFailure.hello) (by decide)).1 h).1]
    decide

/-! ## `newSMTPNotifier` -/

/-- C3: when the query contains none of the keys `smtp`, `username`, `password`,
`conn`, `from`, `subject`, `prefix`, `newSMTPNotifier` returns the notifier with
the default host `localhost:25`, empty user name and password, connection `plain`,
sender `noreply@nunux.org`, the URI's opaque part as recipient, the default
subject template and the prefix `notify:`; and each key that is present gives its
value to the corresponding field, the other fields keeping their defaults. -/
theorem newSMTPNotifier_fields (uri : URL) :
    ((∀ k ∈ smtpKeys, uri.Query.lookup k = none) →
      newSMTPNotifier uri =
        { Host := "localhost:25".toList, Username := [], Password := [],
          Conn := "plain".toList, From := "noreply@nunux.org".toList, To := uri.Opaque,
          Subject := "[whd-notification] {name}#{id} {status}".toList,
          PrefixFilter := "notify:".toList }) ∧
    (newSMTPNotifier uri).To = uri.Opaque ∧
    (newSMTPNotifier uri).Host
      = (uri.Query.lookup "smtp".toList).getD "localhost:25".toList ∧
    (newSMTPNotifier uri).Username = (uri.Query.lookup "username".toList).getD [] ∧
    (newSMTPNotifier uri).Password = (uri.Query.lookup "password".toList).getD [] ∧
    (newSMTPNotifier uri).Conn = (uri.Query.lookup "conn".toList).getD "plain".toList ∧
    (newSMTPNotifier uri).From
      = (uri.Query.lookup "from".toList).getD "noreply@nunux.org".toList ∧
    (newSMTPNotifier uri).Subject
      = (uri.Query.lookup "subject".toList).getD
          "[whd-notification] {name}#{id} {status}".toList ∧
    (newSMTPNotifier uri).PrefixFilter
      = (uri.Query.lookup "prefix".toList).getD "notify:".toList := by
  have hget : ∀ key alt, getValueOrAlt uri.Query key alt = (uri.Query.lookup key).getD alt := by
    intro key alt
    unfold getValueOrAlt
    cases uri.Query.lookup key <;> rfl
  refine ⟨fun h => ?_, rfl, hget _ _, hget _ _, hget _ _, hget _ _, hget _ _, hget _ _,
    hget _ _⟩
  have h1 := h "smtp".toList (by decide)
  have h2 := h "username".toList (by decide)
  have h3 := h "password".toList (by decide)
  have h4 := h "conn".toList (by decide)
  have h5 := h "from".toList (by decide)
  have h6 := h "subject".toList (by decide)
  have h7 := h "prefix".toList (by decide)
  unfold newSMTPNotifier
  simp only [hget, h1, h2, h3, h4, h5, h6, h7, Option.getD_none]
  rfl

theorem newSMTPNotifier_fields_witness :
    newSMTPNotifier ⟨"ops@example.org".toList, [("retry".toList, "3".toList)]⟩ =
      { Host := "localhost:25".toList, Username := [], Password := [],
        Conn := "plain".toList, From := "noreply@nunux.org".toList,
        To := "ops@example.org".toList,
        Subject := "[whd-notification] {name}#{id} {status}".toList,
        PrefixFilter := "notify:".toList } :=
  (newSMTPNotifier_fields ⟨"ops@example.org".toList, [("retry".toList, "3".toList)]⟩).1
    (by decide)

/-- C4 (as stated, refuted): two URIs with the same opaque part and no query key
among `smtp`, `username`, `conn`, `from`, `subject`, `prefix`, one with
`password=a` and the other with `password=b`, give different notifiers. -/
theorem newSMTPNotifier_reads_password :
    (∀ k ∈ ["smtp".toList, "username".toList, "conn".toList, "from".toList,
        "subject".toList, "prefix".toList],
      [("password".toList, "a".toList)].lookup k
        = [("password".toList, "b".toList)].lookup k) ∧
    newSMTPNotifier ⟨"ops@example.org".toList, [("password".toList, "a".toList)]⟩
      ≠ newSMTPNotifier ⟨"ops@example.org".toList, [("password".toList, "b".toList)]⟩ := by
  decide

/-- C4 (amended): the notifier built by `newSMTPNotifier` is determined by the
URI's opaque part and the values of the seven query keys `smtp`, `username`,
`password`, `conn`, `from`, `subject`, `prefix`: two URIs with the same opaque part
that agree on the presence and value of each of these keys give equal notifiers,
whatever other keys their queries contain. -/
theorem newSMTPNotifier_determined (u v : URL) (hrecipient : u.Opaque = v.Opaque)
    (hkeys : ∀ k ∈ smtpKeys, u.Query.lookup k = v.Query.lookup k) :
    newSMTPNotifier u = newSMTPNotifier v := by
  have h1 := hkeys "smtp".toList (by decide)
  have h2 := hkeys "username".toList (by decide)
  have h3 := hkeys "password".toList (by decide)
  have h4 := hkeys "conn".toList (by decide)
  have h5 := hkeys "from".toList (by decide)
  have h6 := hkeys "subject".toList (by decide)
  have h7 := hkeys "prefix".toList (by decide)
  unfold newSMTPNotifier getValueOrAlt
  simp only [h1, h2, h3, h4, h5, h6, h7, hrecipient]

theorem newSMTPNotifier_determined_witness :
    newSMTPNotifier ⟨"ops@example.org".toList,
        [("conn".toList, "tls".toList), ("retry".toList, "3".toList)]⟩
      = newSMTPNotifier ⟨"ops@example.org".toList,
        [("trace".toList, "on".toList), ("conn".toList, "tls".toList),
          ("conn".toList, "plain".toList)]⟩ :=
  newSMTPNotifier_determined _ _ rfl (by decide)

/-! ## `Config` -/

/-- C5: `Config` declares the fifteen options, one field per option, with pairwise
distinct flag names; every declared default is a valid value of its field's type,
the bool defaults being `true` or `false` and the int defaults `nb-workers = 2` and
`hook-timeout = 10` strictly positive integers; and the default log level `info`
is one of `debug`, `info`, `warn`, `error`. -/
theorem Config_wellFormed :
    Config.map (fun f => f.flag)
      = ["listen-addr", "tls", "tls-cert-file", "tls-key-file", "tls-domain", "nb-workers",
          "hook-timeout", "hook-log-dir", "hook-log-output", "scripts", "passwd-file",
          "log-level", "static-dir", "notification-uri", "trust-store-file"] ∧
    Config.length = 15 ∧
    (Config.map fun f => f.flag).Nodup ∧
    (Config.map fun f => f.name).Nodup ∧
    (∀ f ∈ Config, ∀ d ∈ f.dflt, validDefault f.type d = true) ∧
    (∀ f ∈ Config, f.type = GoType.bool → f.dflt = some "true" ∨ f.dflt = some "false") ∧
    (∀ f ∈ Config, f.type = GoType.int → ∃ d k, f.dflt = some d ∧ parseInt d = some k ∧ 0 < k) ∧
    (defaultOf "nb-workers").bind parseInt = some 2 ∧
    (defaultOf "hook-timeout").bind parseInt = some 10 ∧
    defaultOf "log-level" = some "info" ∧
    "info" ∈ ["debug", "info", "warn", "error"] := by
  refine ⟨by decide, by decide, by decide, by decide, by decide, by decide, ?_, by decide,
    by decide, by decide, by decide⟩
  intro f hf ht
  simp only [Config, List.mem_cons, List.mem_singleton, List.not_mem_nil, or_false] at hf
  rcases hf with rfl | rfl | rfl | rfl | rfl | rfl | rfl | rfl | rfl | rfl | rfl | rfl | rfl |
    rfl | rfl <;> first
    | exact absurd ht (by decide)
    | exact ⟨"2", 2, rfl, by decide, by decide⟩
    | exact ⟨"10", 10, rfl, by decide, by decide⟩

end Webhookd
